import Mathlib

/-!
# Verification of the SaaSquatch lead-scoring pipeline (`src/app.py`)

This file gives a shallow embedding of the data-cleaning and scoring core of
the repository (`clean_data` and `score_companies` in `src/app.py`) and proves
or refutes the frozen specification claims about it.

Modelling conventions:
* Python / pandas floating-point numbers are modelled as exact rationals `ℚ`
  (the claims are about ordering, counting and bounded arithmetic, none of
  which depend on rounding).
* A pandas cell is a `Val`: `null` models `NaN`/missing, `num` a numeric cell,
  `str` a string cell.
* `pandas.Series.rank(pct=True)` (default `method='average'`) is modelled by
  sorting the column and averaging the 1-based positions of the tied group,
  divided by the number of rows (`rankPct` below).
* Fallible Python code (`KeyError` from a missing column, `ValueError` from
  `float(...)`) is modelled with `Except`.
-/

/-- A cell value of a pandas dataframe: `null` models `NaN`/`None`,
`num` a numeric cell and `str` a string cell. -/
inductive Val where
  | null : Val
  | num : ℚ → Val
  | str : String → Val
deriving DecidableEq, Repr

/-! ## Python string helpers

`clean_data` manipulates funding strings with `str.replace`, `str.strip` and
`float(...)`.  These are modelled character-list-wise so that every
definition reduces by `decide`/`rfl`. -/

/-- Python `str.replace(pat, rep)`, scanning left to right over at most
`fuel` characters: when the (non-empty) pattern matches at the cursor the
whole match is skipped, so the consumed suffix always shrinks by at least
one character per step and a fuel of the string's length suffices.  The fuel
makes the recursion structural, hence kernel-reducible. -/
def replaceCharsAux (pat rep : List Char) : ℕ → List Char → List Char
  | 0, s => s
  | _ + 1, [] => []
  | n + 1, c :: rest =>
    if pat ≠ [] ∧ pat.isPrefixOf (c :: rest) then
      rep ++ replaceCharsAux pat rep n ((c :: rest).drop pat.length)
    else
      c :: replaceCharsAux pat rep n rest

/-- Python `str.replace(pat, rep)`: replace every non-overlapping occurrence
of `pat`, scanning left to right.  (For the empty pattern the scan leaves the
string unchanged; `clean_data` only uses non-empty patterns.) -/
def replaceChars (pat rep : List Char) (s : List Char) : List Char :=
  replaceCharsAux pat rep s.length s

/-- Python `str.strip()`: drop leading and trailing whitespace. -/
def stripChars (cs : List Char) : List Char :=
  ((cs.dropWhile Char.isWhitespace).reverse.dropWhile Char.isWhitespace).reverse

/-- Python `s.replace(pat, rep)` on `String`s. -/
def pyReplace (s pat rep : String) : String :=
  ⟨replaceChars pat.data rep.data s.data⟩

/-- Python `s.strip()` on `String`s. -/
def pyStrip (s : String) : String := ⟨stripChars s.data⟩

/-- Value of a non-empty digit string, most significant digit first. -/
def digitsToNat (cs : List Char) : ℕ :=
  cs.foldl (fun n c => 10 * n + (c.toNat - 48)) 0

/-- Python `float(s)` on decimal literals, as used on funding strings and by
`pandas.to_numeric`: optional surrounding whitespace, optional sign, then
digits with an optional decimal point (at least one digit overall).
Returns `none` when Python would raise `ValueError`.
(Exponent, `inf` and `nan` literals do not occur in this pipeline's data and
are modelled as unparseable.) -/
def pyFloat? (s : String) : Option ℚ :=
  let cs1 := stripChars s.data
  let sgn : ℚ := if cs1.head? = some '-' then -1 else 1
  let cs2 := if cs1.head? = some '-' ∨ cs1.head? = some '+' then cs1.tail else cs1
  let intPart := cs2.takeWhile Char.isDigit
  let rest := cs2.dropWhile Char.isDigit
  match rest with
  | [] =>
    if intPart.isEmpty then none
    else some (sgn * (digitsToNat intPart : ℚ))
  | '.' :: frac =>
    if frac.all Char.isDigit ∧ ¬(intPart.isEmpty ∧ frac.isEmpty) then
      some (sgn * ((digitsToNat intPart : ℚ) +
        (digitsToNat frac : ℚ) / (10 ^ frac.length : ℚ)))
    else none
  | _ => none

/-! ## Funding coercion (src/app.py line 34)

`df['Funding Amount'].apply(lambda x:
  float(str(x).replace('$','').replace(',','').replace(' - ','0').strip())
  if pd.notnull(x) else 0.0)`

There is no `try`/`except` around the `float` call: a string that still fails
to parse after the substitutions raises `ValueError` to the caller. -/

/-- The string transformation applied before `float`:
strip `'$'`, strip `','`, turn the placeholder `' - '` into `'0'`, then
`strip()` whitespace. -/
def fundingTransform (s : String) : String :=
  pyStrip (pyReplace (pyReplace (pyReplace s "$" "") "," "") " - " "0")

/-- Coercion of one `Funding Amount` cell (line 34 of `src/app.py`).
`null` cells (`pd.notnull` false) become `0.0` without parsing; numeric cells
round-trip through `str`/`float` unchanged; string cells go through
`fundingTransform` and `float`, whose failure is a `ValueError` carrying the
offending string. -/
def coerceFunding : Val → Except String ℚ
  | .null => .ok 0
  | .num q => .ok q
  | .str s =>
    match pyFloat? (fundingTransform s) with
    | some q => .ok q
    | none => .error s

/-! ## The scorer's input (the cleaned dataset)

`score_companies` receives the dataframe produced by `clean_data`: every row
has a numeric `Funding Amount`; the columns `founded_year`, `funding_rounds`,
`seed`, `venture`, `angel` may each be present or absent as a whole (pandas
columns exist for all rows or for none), and individual cells of a present
column may still be `NaN`.  `founded_year` cells may also be non-numeric
strings (handled by `pd.to_numeric(errors='coerce')`); the other optional
columns hold numeric-or-missing cells. -/

/-- One row of the cleaned dataset fed to `score_companies`. -/
structure SRow where
  fundingAmount : ℚ
  foundedYear : Val := .null
  fundingRounds : Option ℚ := none
  seed : Option ℚ := none
  venture : Option ℚ := none
  angel : Option ℚ := none
deriving DecidableEq, Repr

/-- The cleaned dataset: its rows plus which optional columns are present in
the schema (`'col' in df.columns`). -/
structure Dataset where
  rows : List SRow
  hasFoundedYear : Bool := false
  hasFundingRounds : Bool := false
  hasSeed : Bool := false
  hasVenture : Bool := false
  hasAngel : Bool := false
deriving DecidableEq, Repr

/-! ## Raw metrics (src/app.py lines 42-46) -/

/-- `pd.to_numeric(v, errors='coerce')` on one cell: numbers pass through,
numeric strings parse, anything else (including `NaN`) coerces to `NaN`. -/
def toNumericVal : Val → Option ℚ
  | .null => none
  | .num q => some q
  | .str s => pyFloat? s

/-- Line 43, the `founded_year` column expression:
`pd.to_numeric(df['founded_year'], errors='coerce').fillna(0).clip(lower=0)`.
Note the `clip` applies to the *year*, before the subtraction. -/
def yearNum (v : Val) : ℚ := max ((toNumericVal v).getD 0) 0

/-- Line 43: `df['Age'] = current_year - ...clip(lower=0) if 'founded_year'
in df.columns else 0`.  The resulting age is *not* clamped: a `founded_year`
greater than `currentYear` yields a negative age. -/
def ageMetric (currentYear : ℤ) (hasFY : Bool) (v : Val) : ℚ :=
  if hasFY then (currentYear : ℚ) - yearNum v else 0

/-- Line 45's per-column test: `col in df.columns and pd.notnull(row[col])
and row[col] != 0`. -/
def countsType (has : Bool) (cell : Option ℚ) : Bool :=
  has && (match cell with
          | some q => decide (q ≠ 0)
          | none => false)

/-- Line 45: `sum(1 for col in ['seed','venture','angel'] if ...)`. -/
def ftcMetric (ds : Dataset) (r : SRow) : ℕ :=
  (if countsType ds.hasSeed r.seed then 1 else 0) +
  (if countsType ds.hasVenture r.venture then 1 else 0) +
  (if countsType ds.hasAngel r.angel then 1 else 0)

/-- Line 46's per-cell value: `df['funding_rounds'].fillna(0)`.  Only
meaningful when the `funding_rounds` column is present; its absence makes
`score_companies` raise `KeyError` (modelled in `score_companies`). -/
def roundsMetric (r : SRow) : ℚ := r.fundingRounds.getD 0

/-- The `Funding Amount` column as a list of values. -/
def fundingCol (ds : Dataset) : List ℚ := ds.rows.map SRow.fundingAmount

/-- The `Rounds` column (line 46). -/
def roundsCol (ds : Dataset) : List ℚ := ds.rows.map roundsMetric

/-- The `Age` column (line 43). -/
def ageCol (currentYear : ℤ) (ds : Dataset) : List ℚ :=
  ds.rows.map (fun r => ageMetric currentYear ds.hasFoundedYear r.foundedYear)

/-- The `Funding Type Count` column (line 45). -/
def ftcCol (ds : Dataset) : List ℚ :=
  ds.rows.map (fun r => (ftcMetric ds r : ℚ))

/-! ## Percentile rank (`Series.rank(pct=True)`, default `method='average'`)

pandas assigns each entry the average of the 1-based positions its tied
group occupies in sorted order, then divides by the number of rows. -/

/-- The column sorted ascending. -/
def sortedCol (xs : List ℚ) : List ℚ := List.insertionSort (· ≤ ·) xs

/-- Sum of the 1-based positions at which `v` occurs in `ys`:
the head contributes `1` when it equals `v`, and every occurrence in the
tail sits one position further right than in the tail alone. -/
def posSum (v : ℚ) : List ℚ → ℕ
  | [] => 0
  | y :: t => (if y = v then 1 else 0) + posSum v t + t.count v

/-- `Series.rank(pct=True)` with the default average method: the average of
the sorted 1-based positions of the entries equal to `v`, divided by the
number of rows. -/
def rankPct (xs : List ℚ) (v : ℚ) : ℚ :=
  ((posSum v (sortedCol xs) : ℚ) / (xs.count v : ℚ)) / (xs.length : ℚ)

/-! ## Weighted sub-scores and composite score (lines 49-57) -/

/-- Line 49: `df['Funding Score'] = df['Funding Amount'].rank(pct=True) * 50`. -/
def fundingSub (ds : Dataset) (r : SRow) : ℚ :=
  rankPct (fundingCol ds) r.fundingAmount * 50

/-- Line 50: `df['Rounds Score'] = df['Rounds'].rank(pct=True) * 20`. -/
def roundsSub (ds : Dataset) (r : SRow) : ℚ :=
  rankPct (roundsCol ds) (roundsMetric r) * 20

/-- Line 51: `df['Age Score'] = df['Age'].rank(pct=True) * 15`. -/
def ageSub (currentYear : ℤ) (ds : Dataset) (r : SRow) : ℚ :=
  rankPct (ageCol currentYear ds) (ageMetric currentYear ds.hasFoundedYear r.foundedYear) * 15

/-- Line 52: `df['Funding Type Score'] = df['Funding Type Count'].rank(pct=True) * 15`. -/
def ftcSub (ds : Dataset) (r : SRow) : ℚ :=
  rankPct (ftcCol ds) (ftcMetric ds r) * 15

/-- Line 55: `df['Score'] = (sum of the four sub-scores).clip(upper=100)`. -/
def scoreOf (currentYear : ℤ) (ds : Dataset) (r : SRow) : ℚ :=
  min (fundingSub ds r + roundsSub ds r + ageSub currentYear ds r + ftcSub ds r) 100

/-- `DataFrame.idxmax(axis=1)` over labelled values: the label of the first
maximum encountered, scanning left to right (a later entry replaces the
current best only when strictly greater). -/
def idxmaxFrom (best : String × ℚ) : List (String × ℚ) → String
  | [] => best.1
  | p :: rest => if best.2 < p.2 then idxmaxFrom p rest else idxmaxFrom best rest

/-- Line 56: `df[['Funding Score','Rounds Score','Age Score','Funding Type
Score']].idxmax(axis=1).str.replace(' Score', '')`. -/
def topQualityOf (fs rs ag ft : ℚ) : String :=
  pyReplace (idxmaxFrom ("Funding Score", fs)
    [("Rounds Score", rs), ("Age Score", ag), ("Funding Type Score", ft)]) " Score" ""

/-- One scored output row (line 57 drops the intermediate columns; the
original fields plus `Score` and `Top Quality` remain). -/
structure ScoredRow where
  row : SRow
  score : ℚ
  topQuality : String
deriving DecidableEq, Repr

/-- The scored row produced for `r` relative to dataset `ds`. -/
def scoredRow (currentYear : ℤ) (ds : Dataset) (r : SRow) : ScoredRow :=
  { row := r
    score := scoreOf currentYear ds r
    topQuality := topQualityOf (fundingSub ds r) (roundsSub ds r)
      (ageSub currentYear ds r) (ftcSub ds r) }

/-- The exception `score_companies` can raise: line 46 evaluates
`df['funding_rounds']` unguarded, a `KeyError` when the column is absent. -/
inductive ScoreErr where
  | keyError : ScoreErr
deriving DecidableEq, Repr

/-- `score_companies(df)` (lines 40-57), with the wall-clock
`pd.Timestamp.now().year` made an explicit parameter. -/
def score_companies (currentYear : ℤ) (ds : Dataset) : Except ScoreErr (List ScoredRow) :=
  if ds.hasFundingRounds then .ok (ds.rows.map (scoredRow currentYear ds))
  else .error .keyError

/-- Modelled from the spec (for the refinement claim C5): "Top Quality = the
name of the weighted sub-metric with the largest value for that record; ties
broken by the fixed precedence order Funding, Rounds, Age, Funding Type". -/
def specTop (fs rs ag ft : ℚ) : String :=
  let m := max (max (max fs rs) ag) ft
  if fs = m then "Funding"
  else if rs = m then "Rounds"
  else if ag = m then "Age"
  else "Funding Type"

/-! ## The cleaner (`clean_data`, src/app.py lines 23-37)

A raw uploaded table is modelled as a header list plus one association list
per row (a cell absent from a row reads as `NaN`, as a short CSV row would).
Keys are looked up first-match, so setting a cell is prepending. -/

/-- One raw row: column name to cell value. -/
abbrev RawRow := List (String × Val)

/-- A raw dataframe: the column names (schema) and the rows. -/
structure RawDF where
  cols : List String
  rows : List RawRow
deriving DecidableEq, Repr

/-- Cell lookup inside one row (missing key = `NaN`). -/
def lookupRow (r : RawRow) (c : String) : Val :=
  match r.find? (fun p => p.1 = c) with
  | some p => p.2
  | none => .null

/-- Line 24: `df.columns = [col.strip() for col in df.columns]`. -/
def stripDF (t : RawDF) : RawDF :=
  { cols := t.cols.map pyStrip
    rows := t.rows.map (List.map (fun p => (pyStrip p.1, p.2))) }

/-- Line 25's fixed synonym table. -/
def renameHeader (c : String) : String :=
  if c = "name" then "Company Name"
  else if c = "category_list" then "Category"
  else if c = "city" then "City"
  else if c = "funding_total_usd" then "Funding Amount"
  else c

/-- Line 26: `df.rename(columns=rename_map)`. -/
def renameDF (t : RawDF) : RawDF :=
  { cols := t.cols.map renameHeader
    rows := t.rows.map (List.map (fun p => (renameHeader p.1, p.2))) }

/-- Line 27: `df.dropna(subset=['Company Name','Category','City'], how='any')`
keeps the rows where all three mandatory cells are non-null.  (pandas raises
`KeyError` first when any of the three columns is missing from the schema;
that case is `clean_data`'s error branch.) -/
def completeFilter (t : RawDF) : RawDF :=
  { cols := t.cols
    rows := t.rows.filter (fun r =>
      lookupRow r "Company Name" ≠ .null ∧ lookupRow r "Category" ≠ .null ∧
        lookupRow r "City" ≠ .null) }

/-- `.str.lower()` on one cell under object dtype: strings fold case, other
values give `NaN`. -/
def lowerVal : Val → Val
  | .str s => .str s.toLower
  | _ => .null

/-- Lines 28-29: deduplicate on the case-folded company name, first
occurrence wins (`drop_duplicates` also treats `NaN` keys as duplicates of
each other).  The helper column is dropped again, so only the key function
remains. -/
def dedupKeyedAux (key : RawRow → Val) : ℕ → List RawRow → List RawRow
  | 0, _ => []
  | _ + 1, [] => []
  | n + 1, r :: rs => r :: dedupKeyedAux key n (rs.filter (fun x => key x ≠ key r))

/-- Deduplication by key with first-occurrence-wins order; the fuel
(initially the list length, which filtering never increases) makes the
recursion structural. -/
def dedupKeyed (key : RawRow → Val) (l : List RawRow) : List RawRow :=
  dedupKeyedAux key l.length l

/-- Lines 28-29 applied to the dataframe. -/
def dedupDF (t : RawDF) : RawDF :=
  { cols := t.cols
    rows := dedupKeyed (fun r => lowerVal (lookupRow r "Company Name")) t.rows }

/-- Line 30: `df.dropna(axis=1, how='all')` keeps the columns with at least
one non-null cell. -/
def pruneDF (t : RawDF) : RawDF :=
  { cols := t.cols.filter (fun c => t.rows.any (fun r => lookupRow r c ≠ .null))
    rows := t.rows }

/-- Lines 31-32: the canonical column allowlist. -/
def relevantCols : List String :=
  ["Company Name", "Category", "City", "Funding Amount", "funding_rounds", "founded_year"]

/-- Lines 31-32: keep only allowlisted or funding-type columns. -/
def allowlistDF (t : RawDF) : RawDF :=
  { cols := t.cols.filter (fun c =>
      relevantCols.contains c || ["seed", "venture", "angel"].contains c)
    rows := t.rows }

/-- The error-free part of `clean_data` after the mandatory-column check:
lines 27-32. -/
def cleanCore (t : RawDF) : RawDF :=
  allowlistDF (pruneDF (dedupDF (completeFilter (renameDF (stripDF t)))))

/-- Whether the three mandatory columns are present after normalisation and
renaming (what `dropna(subset=...)` requires to not raise `KeyError`). -/
def mandatoryOK (t : RawDF) : Bool :=
  let t1 := renameDF (stripDF t)
  t1.cols.contains "Company Name" && t1.cols.contains "Category" &&
    t1.cols.contains "City"

/-- The exceptions `clean_data` can raise: `KeyError` from
`dropna(subset=...)` on a missing mandatory column, `ValueError` from
`float(...)` on a malformed funding string. -/
inductive CleanErr where
  | keyError : CleanErr
  | valueError : String → CleanErr
deriving DecidableEq, Repr

/-- Lines 33-34 row by row: replace each row's `Funding Amount` cell by its
coerced value, stopping at the first cell whose parse fails (the `ValueError`
of `apply`). -/
def coerceRows : List RawRow → Except String (List RawRow)
  | [] => .ok []
  | r :: rs =>
    match coerceFunding (lookupRow r "Funding Amount") with
    | .ok q =>
      match coerceRows rs with
      | .ok rs' => .ok ((("Funding Amount", Val.num q) :: r) :: rs')
      | .error s => .error s
    | .error s => .error s

/-- Lines 33-36: coerce the funding column when present, otherwise add a
column of `0.0`. -/
def coerceFundingDF (t : RawDF) : Except CleanErr RawDF :=
  if t.cols.contains "Funding Amount" then
    match coerceRows t.rows with
    | .ok rows' => .ok { cols := t.cols, rows := rows' }
    | .error s => .error (.valueError s)
  else
    .ok { cols := "Funding Amount" :: t.cols
          rows := t.rows.map (fun r => ("Funding Amount", Val.num 0) :: r) }

/-- `clean_data(df)` (lines 23-37). -/
def clean_data (t : RawDF) : Except CleanErr RawDF :=
  if mandatoryOK t then coerceFundingDF (cleanCore t)
  else .error .keyError

/-- The single fatal outcome the surrounding pipeline exposes (spec §7's
`SchemaError`): any exception escaping `clean_data`, or the
zero-records stop in `main` (lines 84-86 of src/app.py). -/
inductive PipeErr where
  | schemaError : PipeErr
deriving DecidableEq, Repr

/-- The pipeline around `clean_data`: `main` lines 83-87 — clean, then stop
when the cleaned frame is empty, otherwise hand the dataset onward. -/
def runPipeline (t : RawDF) : Except PipeErr RawDF :=
  match clean_data t with
  | .error _ => .error .schemaError
  | .ok df => if df.rows.isEmpty then .error .schemaError else .ok df

/-- Whether every `Funding Amount` cell of (the cleaned core of) the frame
coerces without `ValueError` (vacuously true when the column is absent). -/
def fundingAllParses (df : RawDF) : Bool :=
  !df.cols.contains "Funding Amount" ||
    df.rows.all (fun r => (coerceFunding (lookupRow r "Funding Amount")).isOk)

/-- Propositional equality on `Except` is decidable componentwise (the
derived instances of this file's error types make concrete pipeline results
checkable by `decide`). -/
instance exceptDecEq {ε α : Type} [DecidableEq ε] [DecidableEq α] :
    DecidableEq (Except ε α) := fun
  | .ok a, .ok b =>
    if h : a = b then isTrue (by rw [h])
    else isFalse (fun hc => h (Except.ok.inj hc))
  | .ok _, .error _ => isFalse (fun hc => Except.noConfusion hc)
  | .error _, .ok _ => isFalse (fun hc => Except.noConfusion hc)
  | .error e, .error f =>
    if h : e = f then isTrue (by rw [h])
    else isFalse (fun hc => h (Except.error.inj hc))

/-! ## Concrete instances used by the claim checks -/

/-- Two records tied on Funding Amount (5 each). -/
def dsPair : Dataset :=
  { rows := [{ fundingAmount := 5, fundingRounds := some 0 },
             { fundingAmount := 5, fundingRounds := some 1 }]
    hasFundingRounds := true }

/-- Two records with distinct Funding Amounts 1 < 2. -/
def dsDistinct : Dataset :=
  { rows := [{ fundingAmount := 1, fundingRounds := some 0 },
             { fundingAmount := 2, fundingRounds := some 3 }]
    hasFundingRounds := true }

/-- A single-record dataset with all optional columns present. -/
def dsSingle : Dataset :=
  { rows := [{ fundingAmount := 7, foundedYear := .num 2010, fundingRounds := some 2,
               seed := some 1 }]
    hasFoundedYear := true
    hasFundingRounds := true
    hasSeed := true }

/-- A dataset whose `funding_rounds` column is absent from the schema
(as when `clean_data` pruned an all-null column). -/
def dsNoRounds : Dataset :=
  { rows := [{ fundingAmount := 3 }] }

/-- A raw table whose funding cell `"abc"` cannot be coerced. -/
def tblAbc : RawDF :=
  { cols := ["name", "category_list", "city", "funding_total_usd"]
    rows := [[("name", .str "Acme"), ("category_list", .str "Tech"),
              ("city", .str "NYC"), ("funding_total_usd", .str "abc")]] }

/-- A raw table with resolvable mandatory fields and one surviving record,
whose funding cell `"oops"` cannot be coerced. -/
def tblOops : RawDF :=
  { cols := ["name", "category_list", "city", "funding_total_usd"]
    rows := [[("name", .str "Beta"), ("category_list", .str "Fin"),
              ("city", .str "LA"), ("funding_total_usd", .str "oops")]] }

/-- A clean raw table the pipeline accepts. -/
def tblOk : RawDF :=
  { cols := ["name", "category_list", "city", "funding_total_usd"]
    rows := [[("name", .str "Gamma"), ("category_list", .str "Bio"),
              ("city", .str "SF"), ("funding_total_usd", .str "$1,000,000")]] }

/-! ## Rank lemmas

`posSum`/`rankPct` are bridged to a counting characterisation: for `v ∈ xs`
the percentile rank is `(#{x < v} + #{x ≤ v} + 1) / (2·n)` — the average-rank
closed form. -/

theorem posSum_of_count_eq_zero {v : ℚ} :
    ∀ {t : List ℚ}, t.count v = 0 → posSum v t = 0 := by
  intro t
  induction t with
  | nil => intro _; rfl
  | cons y t ih =>
    intro h
    rw [List.count_cons] at h
    by_cases hy : y = v
    · simp [hy] at h
    · simp only [posSum, hy, if_false]
      have hc : t.count v = 0 := by omega
      simp [ih hc, hc]

theorem posSum_sorted {v : ℚ} :
    ∀ {ys : List ℚ}, List.Sorted (· ≤ ·) ys →
      2 * posSum v ys =
        ys.count v * (2 * ys.countP (fun x => decide (x < v)) + ys.count v + 1) := by
  intro ys
  induction ys with
  | nil => intro _; rfl
  | cons y t ih =>
    intro hs
    rw [List.sorted_cons] at hs
    have ih' := ih hs.2
    rcases lt_trichotomy y v with hy | hy | hy
    · have hne : y ≠ v := ne_of_lt hy
      simp only [posSum, List.count_cons, List.countP_cons, hne, if_false,
        beq_iff_eq, decide_eq_true_eq, hy, if_true]
      zify at ih' ⊢
      linear_combination ih'
    · subst hy
      have hlt0 : t.countP (fun x => decide (x < y)) = 0 := by
        rw [List.countP_eq_zero]
        intro b hb
        simpa using not_lt.mpr (hs.1 b hb)
      simp only [posSum, List.count_cons, List.countP_cons, if_pos rfl,
        beq_self_eq_true, if_true, decide_eq_true_eq, lt_irrefl, if_false, hlt0]
      rw [hlt0] at ih'
      zify at ih' ⊢
      linear_combination ih'
    · have hne : y ≠ v := ne_of_gt hy
      have hct : t.count v = 0 := by
        rw [List.count_eq_zero]
        intro hv
        exact absurd (lt_of_lt_of_le hy (hs.1 v hv)) (lt_irrefl v)
      simp [posSum, List.count_cons, List.countP_cons, hne, hct,
        posSum_of_count_eq_zero hct]

/-- `#{x ≤ v}` splits as `#{x < v} + #{x = v}`. -/
theorem countP_le_split (v : ℚ) (xs : List ℚ) :
    xs.countP (fun x => decide (x ≤ v)) =
      xs.countP (fun x => decide (x < v)) + xs.count v := by
  induction xs with
  | nil => rfl
  | cons y t ih =>
    simp only [List.countP_cons, List.count_cons, ih, beq_iff_eq,
      decide_eq_true_eq]
    rcases lt_trichotomy y v with h | h | h
    · simp only [h, le_of_lt h, ne_of_lt h, if_true, if_false]
      omega
    · subst h
      simp only [lt_irrefl, le_refl, if_true, if_false]
      omega
    · simp only [not_le.mpr h, not_lt.mpr (le_of_lt h), ne_of_gt h, if_false]
      omega

/-- The counting closed form of pandas' average percentile rank. -/
theorem rankPct_eq_counts {xs : List ℚ} {v : ℚ} (hv : v ∈ xs) :
    rankPct xs v =
      ((xs.countP (fun x => decide (x < v)) : ℚ) +
        (xs.countP (fun x => decide (x ≤ v)) : ℚ) + 1) /
        (2 * (xs.length : ℚ)) := by
  have hperm := List.perm_insertionSort (· ≤ ·) xs
  have hsort := List.sorted_insertionSort (· ≤ ·) xs
  have h2 := posSum_sorted (v := v) hsort
  rw [hperm.count_eq v, hperm.countP_eq] at h2
  have ha : 0 < xs.count v := List.count_pos_iff.mpr hv
  have hn : 0 < xs.length := List.length_pos.mpr (List.ne_nil_of_mem hv)
  have haQ : ((xs.count v : ℚ)) ≠ 0 := by positivity
  have hnQ : ((xs.length : ℚ)) ≠ 0 := by positivity
  have h2n : 2 * posSum v (sortedCol xs) =
      xs.count v * (2 * xs.countP (fun x => decide (x < v)) + xs.count v + 1) := h2
  have h2Q : (2 : ℚ) * (posSum v (sortedCol xs) : ℚ) =
      (xs.count v : ℚ) * (2 * (xs.countP (fun x => decide (x < v)) : ℚ) +
        (xs.count v : ℚ) + 1) := by
    exact_mod_cast h2n
  rw [rankPct, countP_le_split]
  push_cast
  field_simp
  linear_combination ((xs.length : ℚ)) * h2Q

/-! ## Bounds and membership helpers -/

theorem rankPct_pos {xs : List ℚ} {v : ℚ} (hv : v ∈ xs) : 0 < rankPct xs v := by
  rw [rankPct_eq_counts hv]
  have hn : 0 < xs.length := List.length_pos.mpr (List.ne_nil_of_mem hv)
  have hnQ : (0 : ℚ) < (xs.length : ℚ) := by exact_mod_cast hn
  apply div_pos
  · positivity
  · linarith

theorem rankPct_le_one {xs : List ℚ} {v : ℚ} (hv : v ∈ xs) : rankPct xs v ≤ 1 := by
  rw [rankPct_eq_counts hv]
  have hn : 0 < xs.length := List.length_pos.mpr (List.ne_nil_of_mem hv)
  have hnQ : (0 : ℚ) < (xs.length : ℚ) := by exact_mod_cast hn
  have ha : 0 < xs.count v := List.count_pos_iff.mpr hv
  have hle : xs.countP (fun x => decide (x ≤ v)) ≤ xs.length := List.countP_le_length _
  have hsplit := countP_le_split v xs
  rw [div_le_one (by linarith)]
  have hnum : xs.countP (fun x => decide (x < v)) +
      xs.countP (fun x => decide (x ≤ v)) + 1 ≤ 2 * xs.length := by omega
  exact_mod_cast hnum

theorem mem_fundingCol {ds : Dataset} {r : SRow} (hr : r ∈ ds.rows) :
    r.fundingAmount ∈ fundingCol ds := List.mem_map_of_mem _ hr

theorem mem_roundsCol {ds : Dataset} {r : SRow} (hr : r ∈ ds.rows) :
    roundsMetric r ∈ roundsCol ds := List.mem_map_of_mem _ hr

theorem mem_ageCol {y : ℤ} {ds : Dataset} {r : SRow} (hr : r ∈ ds.rows) :
    ageMetric y ds.hasFoundedYear r.foundedYear ∈ ageCol y ds :=
  List.mem_map_of_mem _ hr

theorem mem_ftcCol {ds : Dataset} {r : SRow} (hr : r ∈ ds.rows) :
    ((ftcMetric ds r : ℚ)) ∈ ftcCol ds := List.mem_map_of_mem _ hr

theorem subs_pos {y : ℤ} {ds : Dataset} {r : SRow} (hr : r ∈ ds.rows) :
    0 < fundingSub ds r ∧ 0 < roundsSub ds r ∧
      0 < ageSub y ds r ∧ 0 < ftcSub ds r :=
  ⟨mul_pos (rankPct_pos (mem_fundingCol hr)) (by norm_num),
   mul_pos (rankPct_pos (mem_roundsCol hr)) (by norm_num),
   mul_pos (rankPct_pos (mem_ageCol hr)) (by norm_num),
   mul_pos (rankPct_pos (mem_ftcCol hr)) (by norm_num)⟩

theorem subs_le {y : ℤ} {ds : Dataset} {r : SRow} (hr : r ∈ ds.rows) :
    fundingSub ds r ≤ 50 ∧ roundsSub ds r ≤ 20 ∧
      ageSub y ds r ≤ 15 ∧ ftcSub ds r ≤ 15 := by
  refine ⟨?_, ?_, ?_, ?_⟩
  · have h := rankPct_le_one (mem_fundingCol hr)
    calc fundingSub ds r ≤ 1 * 50 :=
          mul_le_mul_of_nonneg_right h (by norm_num)
      _ = 50 := one_mul 50
  · have h := rankPct_le_one (mem_roundsCol hr)
    calc roundsSub ds r ≤ 1 * 20 :=
          mul_le_mul_of_nonneg_right h (by norm_num)
      _ = 20 := one_mul 20
  · have h := rankPct_le_one (mem_ageCol (y := y) hr)
    calc ageSub y ds r ≤ 1 * 15 :=
          mul_le_mul_of_nonneg_right h (by norm_num)
      _ = 15 := one_mul 15
  · have h := rankPct_le_one (mem_ftcCol hr)
    calc ftcSub ds r ≤ 1 * 15 :=
          mul_le_mul_of_nonneg_right h (by norm_num)
      _ = 15 := one_mul 15

theorem scoreOf_bounds {y : ℤ} {ds : Dataset} {r : SRow} (hr : r ∈ ds.rows) :
    0 < scoreOf y ds r ∧ scoreOf y ds r ≤ 100 := by
  have hp := subs_pos (y := y) hr
  constructor
  · apply lt_min
    · linarith [hp.1, hp.2.1, hp.2.2.1, hp.2.2.2]
    · norm_num
  · exact min_le_right _ _

/-! ## Claim C1 -/

/-- **C1 (counterexample).** The claim states that the percentile rank the
scorer assigns equals `#{records with value ≤ v} / n` for each metric.  On
the two-record dataset `dsPair`, both records tie on Funding Amount `5`:
pandas' average rank gives `3/4`, while the claimed formula gives
`2/2 = 1`. -/
theorem C1_counterexample :
    fundingCol dsPair = [5, 5] ∧
    rankPct (fundingCol dsPair) 5 = 3 / 4 ∧
    ((List.countP (fun x => decide (x ≤ (5 : ℚ))) (fundingCol dsPair) : ℚ) /
      ((fundingCol dsPair).length : ℚ)) = 1 ∧
    (3 / 4 : ℚ) ≠ 1 := by
  refine ⟨rfl, ?_, ?_, by norm_num⟩
  · norm_num [rankPct, sortedCol, List.insertionSort, List.orderedInsert,
      posSum, dsPair, fundingCol]
  · norm_num [dsPair, fundingCol]

/-- **C1 (amended).** For each of the four metric columns that
`score_companies` ranks, the percentile rank of a value `v` present in the
column is the average-rank closed form
`(#{x < v} + #{x ≤ v} + 1) / (2·n)` — which equals the claimed
`#{x ≤ v} / n` exactly when `v` is untied — it lies in `(0, 1]`, and all
records tied on the metric share the same rank. -/
theorem C1_amended (year : ℤ) (ds : Dataset) (col : List ℚ)
    (_hcol : col = fundingCol ds ∨ col = roundsCol ds ∨
      col = ageCol year ds ∨ col = ftcCol ds)
    (v : ℚ) (hv : v ∈ col) :
    rankPct col v =
      ((col.countP (fun x => decide (x < v)) : ℚ) +
        (col.countP (fun x => decide (x ≤ v)) : ℚ) + 1) /
        (2 * (col.length : ℚ)) ∧
    0 < rankPct col v ∧ rankPct col v ≤ 1 ∧
    (∀ w, w = v → rankPct col w = rankPct col v) ∧
    (col.count v = 1 →
      rankPct col v =
        (col.countP (fun x => decide (x ≤ v)) : ℚ) / (col.length : ℚ)) := by
  refine ⟨rankPct_eq_counts hv, rankPct_pos hv, rankPct_le_one hv,
    fun w hw => by rw [hw], fun h1 => ?_⟩
  have hn : 0 < col.length := List.length_pos.mpr (List.ne_nil_of_mem hv)
  have hnQ : (0 : ℚ) < (col.length : ℚ) := by exact_mod_cast hn
  have hsplit := countP_le_split v col
  rw [rankPct_eq_counts hv, hsplit, h1]
  push_cast
  rw [div_eq_div_iff (by linarith) (by linarith)]
  ring

/-- **C1 (witness).** The amended statement applied to the Funding Amount
column of the concrete dataset `dsDistinct` at the untied value `2`. -/
theorem C1_witness :
    0 < rankPct (fundingCol dsDistinct) 2 ∧ rankPct (fundingCol dsDistinct) 2 ≤ 1 ∧
    rankPct (fundingCol dsDistinct) 2 =
      ((fundingCol dsDistinct).countP (fun x => decide (x ≤ (2 : ℚ))) : ℚ) /
        ((fundingCol dsDistinct).length : ℚ) := by
  have h := C1_amended 2025 dsDistinct (fundingCol dsDistinct) (Or.inl rfl) 2
    (by norm_num [dsDistinct, fundingCol])
  exact ⟨h.2.1, h.2.2.1, h.2.2.2.2 (by norm_num [dsDistinct, fundingCol, List.count_cons])⟩

/-! ## Claim C4 -/

/-- **C4.** Every record scored by `score_companies` has
`Score = min(sum of the four weighted sub-scores, 100)` and
`0 ≤ Score ≤ 100`. -/
theorem C4_score_bounds (year : ℤ) (ds : Dataset) (out : List ScoredRow)
    (hout : score_companies year ds = .ok out) (sr : ScoredRow) (hsr : sr ∈ out) :
    (∃ r ∈ ds.rows, sr = scoredRow year ds r ∧
      sr.score = min (fundingSub ds r + roundsSub ds r +
        ageSub year ds r + ftcSub ds r) 100) ∧
    0 ≤ sr.score ∧ sr.score ≤ 100 := by
  unfold score_companies at hout
  by_cases h : ds.hasFundingRounds = true
  · rw [if_pos h] at hout
    have hout' := Except.ok.inj hout
    subst hout'
    obtain ⟨r, hr, rfl⟩ := List.mem_map.mp hsr
    have hb := scoreOf_bounds (y := year) hr
    exact ⟨⟨r, hr, rfl, rfl⟩, le_of_lt hb.1, hb.2⟩
  · rw [if_neg h] at hout
    exact absurd hout (by simp)

/-- **C4 (witness).** The bounds at the concrete single-record dataset
`dsSingle`. -/
theorem C4_witness :
    0 ≤ (scoredRow 2025 dsSingle
      { fundingAmount := 7, foundedYear := .num 2010, fundingRounds := some 2,
        seed := some 1 }).score ∧
    (scoredRow 2025 dsSingle
      { fundingAmount := 7, foundedYear := .num 2010, fundingRounds := some 2,
        seed := some 1 }).score ≤ 100 := by
  have hmem : ({ fundingAmount := 7, foundedYear := .num 2010, fundingRounds := some 2,
                 seed := some 1 } : SRow) ∈ dsSingle.rows := List.mem_singleton.mpr rfl
  have h := C4_score_bounds 2025 dsSingle (dsSingle.rows.map (scoredRow 2025 dsSingle))
    rfl (scoredRow 2025 dsSingle
      { fundingAmount := 7, foundedYear := .num 2010, fundingRounds := some 2, seed := some 1 })
    (List.mem_map_of_mem _ hmem)
  exact ⟨h.2.1, h.2.2⟩

/-! ## Claim C10 -/

/-- **C10.** Every record of a (necessarily non-empty, since the record is in
it) dataset scored by `score_companies` has a strictly positive Score: every
percentile rank is positive, so each weighted sub-score is positive. -/
theorem C10_score_positive (year : ℤ) (ds : Dataset) (out : List ScoredRow)
    (hout : score_companies year ds = .ok out) (sr : ScoredRow) (hsr : sr ∈ out) :
    0 < sr.score := by
  unfold score_companies at hout
  by_cases h : ds.hasFundingRounds = true
  · rw [if_pos h] at hout
    have hout' := Except.ok.inj hout
    subst hout'
    obtain ⟨r, hr, rfl⟩ := List.mem_map.mp hsr
    exact (scoreOf_bounds (y := year) hr).1
  · rw [if_neg h] at hout
    exact absurd hout (by simp)

/-- **C10 (witness).** Positivity at the concrete dataset `dsPair`. -/
theorem C10_witness :
    0 < (scoredRow 2025 dsPair { fundingAmount := 5, fundingRounds := some 0 }).score := by
  have hmem : ({ fundingAmount := 5, fundingRounds := some 0 } : SRow) ∈ dsPair.rows :=
    List.mem_cons_self _ _
  exact C10_score_positive 2025 dsPair (dsPair.rows.map (scoredRow 2025 dsPair))
    rfl (scoredRow 2025 dsPair { fundingAmount := 5, fundingRounds := some 0 })
    (List.mem_map_of_mem _ hmem)

/-! ## Claim C8 -/

/-- **C8 (counterexample).** The claim says every record holding the maximum
Funding Amount gets Funding sub-score exactly 50.  In `dsPair` the maximum
(5, held by both records) is tied, so pandas' average rank is `3/4` and the
sub-score is `37.5`, not `50`. -/
theorem C8_counterexample :
    ({ fundingAmount := 5, fundingRounds := some 0 } : SRow) ∈ dsPair.rows ∧
    fundingCol dsPair = [5, 5] ∧
    fundingSub dsPair { fundingAmount := 5, fundingRounds := some 0 } = 75 / 2 ∧
    (75 / 2 : ℚ) ≠ 50 := by
  refine ⟨List.mem_cons_self _ _, rfl, ?_, by norm_num⟩
  norm_num [fundingSub, fundingCol, dsPair, rankPct, sortedCol,
    List.insertionSort, List.orderedInsert, posSum]

/-- Counting a predicate that holds on every image element of a mapped list
counts the whole list. -/
theorem countP_map_full {α : Type} (f : α → ℚ) (p : ℚ → Bool) (l : List α)
    (h : ∀ a ∈ l, p (f a) = true) : (l.map f).countP p = l.length := by
  have h1 : (l.map f).countP p = (l.map f).length :=
    List.countP_eq_length.mpr (by
      intro a ha
      obtain ⟨q, hq, rfl⟩ := List.mem_map.mp ha
      exact h q hq)
  rw [h1, List.length_map]

/-- **C8 (amended).** A record whose Funding Amount is *strictly* greater
than every other record's (the unique maximum) has percentile rank 1 and
weighted Funding sub-score exactly 50. -/
theorem C8_amended (ds : Dataset) (L R : List SRow) (r : SRow)
    (hrows : ds.rows = L ++ r :: R)
    (hmax : ∀ q, q ∈ L ++ R → q.fundingAmount < r.fundingAmount) :
    fundingSub ds r = 50 := by
  have hcol : fundingCol ds =
      L.map SRow.fundingAmount ++ r.fundingAmount :: R.map SRow.fundingAmount := by
    simp [fundingCol, hrows]
  have hv : r.fundingAmount ∈ fundingCol ds := by
    rw [hcol]
    exact List.mem_append_right _ (List.mem_cons_self _ _)
  have hLlt : (L.map SRow.fundingAmount).countP
      (fun x => decide (x < r.fundingAmount)) = L.length := by
    refine countP_map_full _ _ _ ?_
    intro q hq
    simpa using hmax q (List.mem_append_left _ hq)
  have hRlt : (R.map SRow.fundingAmount).countP
      (fun x => decide (x < r.fundingAmount)) = R.length := by
    refine countP_map_full _ _ _ ?_
    intro q hq
    simpa using hmax q (List.mem_append_right _ hq)
  have hlt : (fundingCol ds).countP (fun x => decide (x < r.fundingAmount)) =
      L.length + R.length := by
    rw [hcol, List.countP_append, List.countP_cons, hLlt, hRlt]
    simp
  have hle : (fundingCol ds).countP (fun x => decide (x ≤ r.fundingAmount)) =
      L.length + R.length + 1 := by
    rw [hcol, List.countP_append, List.countP_cons]
    have hL : (L.map SRow.fundingAmount).countP
        (fun x => decide (x ≤ r.fundingAmount)) = L.length := by
      refine countP_map_full _ _ _ ?_
      intro q hq
      simpa using le_of_lt (hmax q (List.mem_append_left _ hq))
    have hR : (R.map SRow.fundingAmount).countP
        (fun x => decide (x ≤ r.fundingAmount)) = R.length := by
      refine countP_map_full _ _ _ ?_
      intro q hq
      simpa using le_of_lt (hmax q (List.mem_append_right _ hq))
    rw [hL, hR]
    simp
    omega
  have hlen : (fundingCol ds).length = L.length + R.length + 1 := by
    simp [hcol]
    omega
  rw [fundingSub, rankPct_eq_counts hv, hlt, hle, hlen]
  have hpos : (0 : ℚ) < (L.length : ℚ) + (R.length : ℚ) + 1 := by positivity
  push_cast
  field_simp
  ring

/-- **C8 (witness).** In `dsDistinct` the record with Funding Amount 2 is the
strict maximum and its Funding sub-score is exactly 50. -/
theorem C8_witness :
    fundingSub dsDistinct { fundingAmount := 2, fundingRounds := some 3 } = 50 := by
  refine C8_amended dsDistinct [{ fundingAmount := 1, fundingRounds := some 0 }] []
    { fundingAmount := 2, fundingRounds := some 3 } rfl ?_
  intro q hq
  simp only [List.append_nil, List.mem_singleton] at hq
  subst hq
  norm_num

/-! ## Claim C5 -/

theorem specTop_eq_funding {fs rs ag ft : ℚ} (h1 : rs ≤ fs) (h2 : ag ≤ fs)
    (h3 : ft ≤ fs) : specTop fs rs ag ft = "Funding" := by
  have hm : max (max (max fs rs) ag) ft = fs := by
    rw [max_eq_left h1, max_eq_left h2, max_eq_left h3]
  simp [specTop, hm]

theorem specTop_eq_rounds {fs rs ag ft : ℚ} (h1 : fs < rs) (h2 : ag ≤ rs)
    (h3 : ft ≤ rs) : specTop fs rs ag ft = "Rounds" := by
  have hm : max (max (max fs rs) ag) ft = rs := by
    rw [max_eq_right (le_of_lt h1), max_eq_left h2, max_eq_left h3]
  simp [specTop, hm, ne_of_lt h1]

theorem specTop_eq_age {fs rs ag ft : ℚ} (h1 : fs < ag) (h2 : rs < ag)
    (h3 : ft ≤ ag) : specTop fs rs ag ft = "Age" := by
  have hm : max (max (max fs rs) ag) ft = ag := by
    rw [max_eq_right (max_le (le_of_lt h1) (le_of_lt h2)), max_eq_left h3]
  simp [specTop, hm, ne_of_lt h1, ne_of_lt h2]

theorem specTop_eq_ftype {fs rs ag ft : ℚ} (h1 : fs < ft) (h2 : rs < ft)
    (h3 : ag < ft) : specTop fs rs ag ft = "Funding Type" := by
  have hm : max (max (max fs rs) ag) ft = ft := by
    rw [max_eq_right (le_of_lt ((max_lt (max_lt h1 h2) h3)))]
  simp [specTop, hm, ne_of_lt h1, ne_of_lt h2, ne_of_lt h3]

/-- `idxmax` over the four weighted columns, then stripping `' Score'`,
agrees with the spec's first-maximum-in-precedence-order description. -/
theorem topQualityOf_eq_specTop (fs rs ag ft : ℚ) :
    topQualityOf fs rs ag ft = specTop fs rs ag ft := by
  have e1 : pyReplace "Funding Score" " Score" "" = "Funding" := by decide
  have e2 : pyReplace "Rounds Score" " Score" "" = "Rounds" := by decide
  have e3 : pyReplace "Age Score" " Score" "" = "Age" := by decide
  have e4 : pyReplace "Funding Type Score" " Score" "" = "Funding Type" := by decide
  simp only [topQualityOf, idxmaxFrom]
  rcases lt_or_le fs rs with h1 | h1
  · rw [if_pos h1]
    rcases lt_or_le rs ag with h2 | h2
    · rw [if_pos h2]
      rcases lt_or_le ag ft with h3 | h3
      · rw [if_pos h3, e4,
          specTop_eq_ftype (by linarith) (by linarith) h3]
      · rw [if_neg (not_lt.mpr h3), e3,
          specTop_eq_age (by linarith) h2 h3]
    · rw [if_neg (not_lt.mpr h2)]
      rcases lt_or_le rs ft with h3 | h3
      · rw [if_pos h3, e4,
          specTop_eq_ftype (by linarith) h3 (by linarith)]
      · rw [if_neg (not_lt.mpr h3), e2, specTop_eq_rounds h1 h2 h3]
  · rw [if_neg (not_lt.mpr h1)]
    rcases lt_or_le fs ag with h2 | h2
    · rw [if_pos h2]
      rcases lt_or_le ag ft with h3 | h3
      · rw [if_pos h3, e4,
          specTop_eq_ftype (by linarith) (by linarith) h3]
      · rw [if_neg (not_lt.mpr h3), e3, specTop_eq_age h2 (by linarith) h3]
    · rw [if_neg (not_lt.mpr h2)]
      rcases lt_or_le fs ft with h3 | h3
      · rw [if_pos h3, e4,
          specTop_eq_ftype h3 (by linarith) (by linarith)]
      · rw [if_neg (not_lt.mpr h3), e1, specTop_eq_funding h1 h2 h3]

/-- **C5.** Every scored record's Top Quality is the name of the weighted
sub-metric with the greatest value, ties resolved by the precedence order
Funding, Rounds, Age, Funding Type (`idxmax` keeps the first maximum; under
a four-way tie Funding is reported). -/
theorem C5_top_quality (year : ℤ) (ds : Dataset) (r : SRow) :
    (scoredRow year ds r).topQuality =
      specTop (fundingSub ds r) (roundsSub ds r) (ageSub year ds r) (ftcSub ds r) :=
  topQualityOf_eq_specTop _ _ _ _

/-! ## Claim C6 -/

/-- **C6 (counterexample).** Line 43 clips the *founded year* (not the
resulting age) at 0: with current year 2025, `founded_year = 3000` yields
Age `-975`, not the `0` the claim's "negative resulting age becomes 0"
requires. -/
theorem C6_counterexample :
    ageMetric 2025 true (.num 3000) = -975 ∧
    ageMetric 2025 true (.num 3000) < 0 ∧
    ageMetric 2025 true (.num 3000) ≠ 0 := by
  refine ⟨?_, ?_, ?_⟩ <;>
    norm_num [ageMetric, yearNum, toNumericVal]

/-- **C6 (amended).** Age = current year − max(coerced founded_year, 0):
non-numeric or missing years coerce to 0 (giving Age = current year), the
*year* — not the age — is clamped at 0, so a founded_year beyond the current
year yields a negative Age; an absent `founded_year` column gives Age 0 for
every record, and no case raises. -/
theorem C6_amended (year : ℤ) (v : Val) :
    ageMetric year true v = (year : ℚ) - max ((toNumericVal v).getD 0) 0 ∧
    (toNumericVal v = none → ageMetric year true v = (year : ℚ)) ∧
    (∀ q : ℚ, 0 ≤ q → ageMetric year true (.num q) = (year : ℚ) - q) ∧
    (∀ q : ℚ, (year : ℚ) < q → ageMetric year true (.num q) < 0) ∧
    ageMetric year false v = 0 := by
  refine ⟨rfl, ?_, ?_, ?_, rfl⟩
  · intro h
    simp [ageMetric, yearNum, h]
  · intro q hq
    simp [ageMetric, yearNum, toNumericVal, max_eq_left hq]
  · intro q hq
    rcases le_or_lt 0 q with h0 | h0
    · simp only [ageMetric, yearNum, toNumericVal, Option.getD_some, if_true,
        max_eq_left h0]
      linarith
    · simp only [ageMetric, yearNum, toNumericVal, Option.getD_some, if_true,
        max_eq_right (le_of_lt h0)]
      linarith

/-- **C6 (witness).** The amended behaviour at concrete inputs: a missing
year gives Age = current year; an absent column gives Age 0. -/
theorem C6_witness :
    ageMetric 2025 true .null = 2025 ∧ ageMetric 2025 false .null = 0 ∧
    ageMetric 2025 true (.num 2020) = 5 := by
  have h := C6_amended 2025 Val.null
  refine ⟨h.2.1 rfl, h.2.2.2.2, ?_⟩
  have h5 := (C6_amended 2025 (Val.num 2020)).2.2.1 2020 (by norm_num)
  rw [h5]
  norm_num

/-! ## Claim C7 -/

/-- **C7 (counterexample).** The claim says a dataset whose
`funding_rounds` column is absent from the schema is scored without raising;
line 46 evaluates `df['funding_rounds']` unguarded and raises `KeyError` on
the (non-empty) dataset `dsNoRounds`. -/
theorem C7_counterexample :
    score_companies 2025 dsNoRounds = .error .keyError ∧ dsNoRounds.rows ≠ [] := by
  exact ⟨rfl, by simp [dsNoRounds]⟩

/-- **C7 (amended).** When the `funding_rounds` column is present,
`score_companies` returns normally and a missing (null) cell contributes
Rounds = 0; when the column is absent from the schema it raises `KeyError`
instead. -/
theorem C7_amended (year : ℤ) (ds : Dataset) :
    (ds.hasFundingRounds = true →
      score_companies year ds = .ok (ds.rows.map (scoredRow year ds)) ∧
      ∀ r : SRow, r.fundingRounds = none → roundsMetric r = 0) ∧
    (ds.hasFundingRounds = false → score_companies year ds = .error .keyError) := by
  constructor
  · intro h
    refine ⟨by simp [score_companies, h], ?_⟩
    intro r hr
    simp [roundsMetric, hr]
  · intro h
    simp [score_companies, h]

/-- **C7 (witness).** The amended statement at the concrete dataset
`dsSingle` (column present) and a row with a null `funding_rounds` cell. -/
theorem C7_witness :
    score_companies 2025 dsSingle = .ok (dsSingle.rows.map (scoredRow 2025 dsSingle)) ∧
    roundsMetric { fundingAmount := 3 } = 0 := by
  have h := (C7_amended 2025 dsSingle).1 rfl
  exact ⟨h.1, h.2 { fundingAmount := 3 } rfl⟩

/-! ## Claim C9 -/

theorem avgRank_div_mono {a b c d n : ℕ} (h1 : a ≤ c) (h2 : b ≤ d) (hn : 0 < n) :
    ((a : ℚ) + (b : ℚ) + 1) / (2 * (n : ℚ)) ≤ ((c : ℚ) + (d : ℚ) + 1) / (2 * (n : ℚ)) := by
  have hnQ : (0 : ℚ) < (n : ℚ) := by exact_mod_cast hn
  rw [div_le_div_iff_of_pos_right (by linarith)]
  have h1Q : (a : ℚ) ≤ (c : ℚ) := by exact_mod_cast h1
  have h2Q : (b : ℚ) ≤ (d : ℚ) := by exact_mod_cast h2
  linarith

/-- Splitting a count over `A ++ x :: B`. -/
theorem countP_middle (A B : List ℚ) (x : ℚ) (p : ℚ → Bool) :
    (A ++ x :: B).countP p =
      A.countP p + B.countP p + (if p x = true then 1 else 0) := by
  rw [List.countP_append, List.countP_cons]
  omega

/-- Raising the middle value of a column to `v'` cannot lower its own
percentile rank. -/
theorem rankPct_self_mono (A B : List ℚ) {v v' : ℚ} (hvv : v ≤ v') :
    rankPct (A ++ v :: B) v ≤ rankPct (A ++ v' :: B) v' := by
  have hv : v ∈ A ++ v :: B := List.mem_append_right _ (List.mem_cons_self _ _)
  have hv' : v' ∈ A ++ v' :: B := List.mem_append_right _ (List.mem_cons_self _ _)
  rw [rankPct_eq_counts hv, rankPct_eq_counts hv']
  have len1 : (A ++ v :: B).length = A.length + B.length + 1 := by
    simp
    omega
  have len2 : (A ++ v' :: B).length = A.length + B.length + 1 := by
    simp
    omega
  rw [len1, len2, countP_middle, countP_middle, countP_middle, countP_middle]
  have maL : A.countP (fun x => decide (x < v)) ≤ A.countP (fun x => decide (x < v')) :=
    List.countP_mono_left (fun x _ hx => by
      simp only [decide_eq_true_eq] at hx ⊢
      exact lt_of_lt_of_le hx hvv)
  have maB : B.countP (fun x => decide (x < v)) ≤ B.countP (fun x => decide (x < v')) :=
    List.countP_mono_left (fun x _ hx => by
      simp only [decide_eq_true_eq] at hx ⊢
      exact lt_of_lt_of_le hx hvv)
  have mbL : A.countP (fun x => decide (x ≤ v)) ≤ A.countP (fun x => decide (x ≤ v')) :=
    List.countP_mono_left (fun x _ hx => by
      simp only [decide_eq_true_eq] at hx ⊢
      exact le_trans hx hvv)
  have mbB : B.countP (fun x => decide (x ≤ v)) ≤ B.countP (fun x => decide (x ≤ v')) :=
    List.countP_mono_left (fun x _ hx => by
      simp only [decide_eq_true_eq] at hx ⊢
      exact le_trans hx hvv)
  apply avgRank_div_mono _ _ (by omega)
  · simp only [decide_eq_true_eq, lt_irrefl, if_false]
    omega
  · simp only [decide_eq_true_eq, le_refl, if_true]
    omega

/-- Raising the middle value of a column cannot raise any other value's
percentile rank. -/
theorem rankPct_other_anti (A B : List ℚ) {v v' w : ℚ} (hvv : v ≤ v')
    (hw : w ∈ A ∨ w ∈ B) :
    rankPct (A ++ v' :: B) w ≤ rankPct (A ++ v :: B) w := by
  have hw1 : w ∈ A ++ v :: B := by
    rcases hw with h | h
    · exact List.mem_append_left _ h
    · exact List.mem_append_right _ (List.mem_cons_of_mem _ h)
  have hw2 : w ∈ A ++ v' :: B := by
    rcases hw with h | h
    · exact List.mem_append_left _ h
    · exact List.mem_append_right _ (List.mem_cons_of_mem _ h)
  rw [rankPct_eq_counts hw1, rankPct_eq_counts hw2]
  have len1 : (A ++ v :: B).length = A.length + B.length + 1 := by
    simp
    omega
  have len2 : (A ++ v' :: B).length = A.length + B.length + 1 := by
    simp
    omega
  rw [len1, len2, countP_middle, countP_middle, countP_middle, countP_middle]
  have hlt : (if decide (v' < w) = true then 1 else 0) ≤
      (if decide (v < w) = true then 1 else 0) := by
    simp only [decide_eq_true_eq]
    split_ifs with h1 h2
    · omega
    · exact absurd (lt_of_le_of_lt hvv h1) h2
    · omega
    · omega
  have hle : (if decide (v' ≤ w) = true then 1 else 0) ≤
      (if decide (v ≤ w) = true then 1 else 0) := by
    simp only [decide_eq_true_eq]
    split_ifs with h1 h2
    · omega
    · exact absurd (le_trans hvv h1) h2
    · omega
    · omega
  exact avgRank_div_mono (by omega) (by omega) (by omega)

/-- **C9.** Raising one record's Funding Amount (all other records and all
its other fields fixed) never lowers that record's Score and never raises
any other record's weighted Funding sub-score. -/
theorem C9_monotonic (year : ℤ) (ds ds' : Dataset) (L R : List SRow) (r0 : SRow)
    (v' : ℚ) (hrows : ds.rows = L ++ r0 :: R)
    (hds' : ds' = { ds with rows := L ++ { r0 with fundingAmount := v' } :: R })
    (hv : r0.fundingAmount < v') :
    scoreOf year ds r0 ≤ scoreOf year ds' { r0 with fundingAmount := v' } ∧
    (∀ q, q ∈ L ∨ q ∈ R → fundingSub ds' q ≤ fundingSub ds q) := by
  subst hds'
  have hfc : fundingCol ds =
      L.map SRow.fundingAmount ++ r0.fundingAmount :: R.map SRow.fundingAmount := by
    simp [fundingCol, hrows]
  have hfc' : fundingCol { ds with rows := L ++ { r0 with fundingAmount := v' } :: R } =
      L.map SRow.fundingAmount ++ v' :: R.map SRow.fundingAmount := by
    simp [fundingCol]
  have hrc : roundsCol { ds with rows := L ++ { r0 with fundingAmount := v' } :: R } =
      roundsCol ds := by
    simp [roundsCol, hrows, roundsMetric]
  have hac : ageCol year { ds with rows := L ++ { r0 with fundingAmount := v' } :: R } =
      ageCol year ds := by
    simp [ageCol, hrows]
  have hftc : ftcCol { ds with rows := L ++ { r0 with fundingAmount := v' } :: R } =
      ftcCol ds := by
    simp [ftcCol, hrows, ftcMetric]
  constructor
  · have hfund : fundingSub ds r0 ≤
        fundingSub { ds with rows := L ++ { r0 with fundingAmount := v' } :: R }
          { r0 with fundingAmount := v' } := by
      unfold fundingSub
      rw [hfc, hfc']
      have := rankPct_self_mono (L.map SRow.fundingAmount) (R.map SRow.fundingAmount)
        (le_of_lt hv)
      nlinarith [this]
    have hrsub : roundsSub { ds with rows := L ++ { r0 with fundingAmount := v' } :: R }
        { r0 with fundingAmount := v' } = roundsSub ds r0 := by
      unfold roundsSub
      rw [hrc]
      rfl
    have hasub : ageSub year { ds with rows := L ++ { r0 with fundingAmount := v' } :: R }
        { r0 with fundingAmount := v' } = ageSub year ds r0 := by
      unfold ageSub
      rw [hac]
    have hfsub : ftcSub { ds with rows := L ++ { r0 with fundingAmount := v' } :: R }
        { r0 with fundingAmount := v' } = ftcSub ds r0 := by
      unfold ftcSub
      rw [hftc]
      rfl
    unfold scoreOf
    rw [hrsub, hasub, hfsub]
    exact min_le_min (by linarith) le_rfl
  · intro q hq
    unfold fundingSub
    rw [hfc, hfc']
    have hwmem : q.fundingAmount ∈ L.map SRow.fundingAmount ∨
        q.fundingAmount ∈ R.map SRow.fundingAmount := by
      rcases hq with h | h
      · exact Or.inl (List.mem_map_of_mem _ h)
      · exact Or.inr (List.mem_map_of_mem _ h)
    have := rankPct_other_anti (L.map SRow.fundingAmount) (R.map SRow.fundingAmount)
      (le_of_lt hv) hwmem
    nlinarith [this]

/-- **C9 (witness).** The monotonicity applied to a concrete two-record
dataset: the first record's funding is raised from 1 to 3. -/
theorem C9_witness :
    scoreOf 2025 dsDistinct { fundingAmount := 1, fundingRounds := some 0 } ≤
      scoreOf 2025
        { rows := [{ fundingAmount := 3, fundingRounds := some 0 },
                   { fundingAmount := 2, fundingRounds := some 3 }]
          hasFundingRounds := true }
        { fundingAmount := 3, fundingRounds := some 0 } ∧
    fundingSub
        { rows := [{ fundingAmount := 3, fundingRounds := some 0 },
                   { fundingAmount := 2, fundingRounds := some 3 }]
          hasFundingRounds := true }
        { fundingAmount := 2, fundingRounds := some 3 } ≤
      fundingSub dsDistinct { fundingAmount := 2, fundingRounds := some 3 } := by
  have h := C9_monotonic 2025 dsDistinct
    { rows := [{ fundingAmount := 3, fundingRounds := some 0 },
               { fundingAmount := 2, fundingRounds := some 3 }]
      hasFundingRounds := true }
    [] [{ fundingAmount := 2, fundingRounds := some 3 }]
    { fundingAmount := 1, fundingRounds := some 0 } 3 rfl rfl (by norm_num)
  exact ⟨h.1, h.2 { fundingAmount := 2, fundingRounds := some 3 }
    (Or.inr (List.mem_singleton.mpr rfl))⟩

/-! ## Claim C2 -/

/-- **C2 (counterexample).** The claim says `clean` returns normally on any
malformed funding string.  There is no `try`/`except` around line 34's
`float(...)`: on `tblAbc`, whose funding cell is the unparseable `"abc"`,
`clean_data` raises `ValueError` to the caller. -/
theorem C2_counterexample :
    clean_data tblAbc = .error (.valueError "abc") := by decide

/-- **C2 (amended).** A missing (null) funding value resolves to `0.0` and
the literal `" - "` coerces to `0.0` (the dash substitution turns it into
`"0"`), but a funding string that still fails to parse after stripping `'$'`,
`','`, the `' - '` placeholder and whitespace raises `ValueError` to the
caller instead of resolving to `0.0`. -/
theorem C2_amended (s : String) (h : pyFloat? (fundingTransform s) = none) :
    coerceFunding (.str s) = .error s ∧
    coerceFunding .null = .ok 0 ∧
    coerceFunding (.str " - ") = .ok 0 := by
  refine ⟨?_, rfl, ?_⟩
  · simp [coerceFunding, h]
  · have h1 : fundingTransform " - " = "0" := by decide
    have h2 : stripChars "0".data = ['0'] := by decide
    simp [coerceFunding, h1, pyFloat?, h2, digitsToNat]

/-- **C2 (witness).** The amended behaviour at the concrete malformed string
`"abc"` and at `" - "`. -/
theorem C2_witness :
    coerceFunding (.str "abc") = .error "abc" ∧ coerceFunding (.str " - ") = .ok 0 := by
  have h := C2_amended "abc" (by decide)
  exact ⟨h.1, h.2.2⟩

/-! ## Claim C3 -/

/-- **C3 (counterexample).** On `tblOops` the mandatory columns resolve and
cleaning leaves one record, yet the pipeline still fails — because the
funding cell `"oops"` raises `ValueError` during coercion.  So "fails exactly
when mandatory fields are unresolvable or zero records remain" is false. -/
theorem C3_counterexample :
    runPipeline tblOops = .error .schemaError ∧
    mandatoryOK tblOops = true ∧
    (cleanCore tblOops).rows.length = 1 := by
  exact ⟨by decide, by decide, by decide⟩

theorem coerceRows_length :
    ∀ {rs rs' : List RawRow}, coerceRows rs = .ok rs' → rs'.length = rs.length := by
  intro rs
  induction rs with
  | nil =>
    intro rs' h
    simp only [coerceRows] at h
    obtain rfl := Except.ok.inj h
    rfl
  | cons r t ih =>
    intro rs' h
    unfold coerceRows at h
    cases hc : coerceFunding (lookupRow r "Funding Amount") with
    | ok q =>
      rw [hc] at h
      cases ht : coerceRows t with
      | ok t' =>
        rw [ht] at h
        obtain rfl := Except.ok.inj h
        simp [ih ht]
      | error s =>
        rw [ht] at h
        exact absurd h (by simp)
    | error s =>
      rw [hc] at h
      exact absurd h (by simp)

theorem coerceRows_isOk_iff (rs : List RawRow) :
    (coerceRows rs).isOk = true ↔
      rs.all (fun r => (coerceFunding (lookupRow r "Funding Amount")).isOk) = true := by
  induction rs with
  | nil => simp [coerceRows, Except.isOk, Except.toBool]
  | cons r t ih =>
    rw [List.all_cons]
    unfold coerceRows
    cases hc : coerceFunding (lookupRow r "Funding Amount") with
    | ok q =>
      simp only [hc, Except.isOk, Except.toBool, Bool.true_and]
      cases ht : coerceRows t with
      | ok t' =>
        rw [ht] at ih
        simp only [Except.isOk, Except.toBool] at ih ⊢
        exact ih
      | error s =>
        rw [ht] at ih
        simp only [Except.isOk, Except.toBool] at ih ⊢
        exact ih
    | error s =>
      simp only [hc, Except.isOk, Except.toBool, Bool.false_and]

theorem clean_data_rows_length {t df : RawDF} (h : clean_data t = .ok df) :
    df.rows.length = (cleanCore t).rows.length := by
  unfold clean_data at h
  by_cases hm : mandatoryOK t = true
  · rw [if_pos hm] at h
    unfold coerceFundingDF at h
    by_cases hcol : (cleanCore t).cols.contains "Funding Amount" = true
    · rw [if_pos hcol] at h
      cases hcr : coerceRows (cleanCore t).rows with
      | ok rows' =>
        rw [hcr] at h
        obtain rfl := Except.ok.inj h
        exact coerceRows_length hcr
      | error s =>
        rw [hcr] at h
        exact absurd h (by simp)
    · rw [if_neg hcol] at h
      obtain rfl := Except.ok.inj h
      simp
  · rw [if_neg hm] at h
    exact absurd h (by simp)

theorem clean_data_ok_char (t : RawDF) :
    (clean_data t).isOk = true ↔
      (mandatoryOK t && fundingAllParses (cleanCore t)) = true := by
  unfold clean_data
  by_cases hm : mandatoryOK t = true
  · rw [if_pos hm, hm, Bool.true_and]
    unfold coerceFundingDF fundingAllParses
    by_cases hcol : (cleanCore t).cols.contains "Funding Amount" = true
    · rw [if_pos hcol, hcol]
      simp only [Bool.not_true, Bool.false_or]
      cases hcr : coerceRows (cleanCore t).rows with
      | ok rows' =>
        have hall := (coerceRows_isOk_iff (cleanCore t).rows).mp
          (by rw [hcr]; rfl)
        rw [hall]
        simp only [hcr, Except.isOk, Except.toBool]
      | error s =>
        have hnall : ((cleanCore t).rows.all
            (fun r => (coerceFunding (lookupRow r "Funding Amount")).isOk)) = false := by
          cases hb : ((cleanCore t).rows.all
              (fun r => (coerceFunding (lookupRow r "Funding Amount")).isOk)) with
          | true =>
            have := (coerceRows_isOk_iff (cleanCore t).rows).mpr hb
            rw [hcr] at this
            simp [Except.isOk, Except.toBool] at this
          | false => rfl
        rw [hnall]
        simp only [hcr, Except.isOk, Except.toBool]
    · rw [if_neg hcol]
      simp only [Bool.not_eq_true] at hcol
      rw [hcol]
      simp [Except.isOk, Except.toBool]
  · rw [if_neg hm]
    simp only [Bool.not_eq_true] at hm
    rw [hm]
    simp [Except.isOk, Except.toBool]

theorem runPipeline_of_ok {t df : RawDF} (h : clean_data t = .ok df) :
    runPipeline t = if df.rows.isEmpty then .error .schemaError else .ok df := by
  unfold runPipeline
  rw [h]

theorem runPipeline_of_error {t : RawDF} {e : CleanErr} (h : clean_data t = .error e) :
    runPipeline t = .error .schemaError := by
  unfold runPipeline
  rw [h]

/-- **C3 (amended).** The pipeline around `clean` yields a dataset exactly
when the mandatory columns (Company Name, Category, City) resolve after
column mapping, every surviving Funding Amount cell coerces without
`ValueError`, and cleaning leaves at least one record; it fails (the spec's
`SchemaError`, covering the `KeyError`, the uncaught `ValueError` and the
empty-result stop) in every other case. -/
theorem C3_amended (t : RawDF) :
    (∃ df, runPipeline t = .ok df) ↔
      mandatoryOK t = true ∧ fundingAllParses (cleanCore t) = true ∧
        (cleanCore t).rows ≠ [] := by
  cases h : clean_data t with
  | error e =>
    have hrp := runPipeline_of_error h
    constructor
    · rintro ⟨df, hdf⟩
      rw [hrp] at hdf
      exact absurd hdf (by simp)
    · rintro ⟨h1, h2, h3⟩
      have hok : (clean_data t).isOk = true :=
        (clean_data_ok_char t).mpr (by rw [h1, h2]; rfl)
      rw [h] at hok
      simp [Except.isOk, Except.toBool] at hok
  | ok df =>
    have hlen := clean_data_rows_length h
    have hok : (clean_data t).isOk = true := by
      rw [h]
      rfl
    have hchar := (clean_data_ok_char t).mp hok
    rw [Bool.and_eq_true] at hchar
    have hm : mandatoryOK t = true := hchar.1
    have hfp : fundingAllParses (cleanCore t) = true := hchar.2
    have hrp := runPipeline_of_ok h
    by_cases he : df.rows.isEmpty = true
    · rw [if_pos he] at hrp
      constructor
      · rintro ⟨df', hdf'⟩
        rw [hrp] at hdf'
        exact absurd hdf' (by simp)
      · rintro ⟨-, -, hne⟩
        exfalso
        have h0 : (cleanCore t).rows.length = 0 := by
          rw [← hlen]
          exact List.isEmpty_iff_length_eq_zero.mp he
        exact hne (List.length_eq_zero.mp h0)
    · rw [if_neg he] at hrp
      constructor
      · rintro -
        refine ⟨hm, hfp, ?_⟩
        intro hnil
        apply he
        rw [List.isEmpty_iff_length_eq_zero, hlen, hnil]
        rfl
      · intro _
        exact ⟨df, hrp⟩

/-- **C3 (witness).** The characterisation applied to the concrete clean
table `tblOk` (mandatory columns resolvable, funding `"$1,000,000"`
parseable, one record surviving). -/
theorem C3_witness : (runPipeline tblOk).isOk = true := by
  obtain ⟨df, hdf⟩ := (C3_amended tblOk).mpr ⟨by decide, by decide, by decide⟩
  rw [hdf]
  rfl
